import Mathlib

/-!
Shallow embedding of the `shared_memory` C++ library (POSIX shared-memory
RAII wrapper) and proofs of its specified properties.

Embedded source files:
* `include/shared_memory/error.hpp`   — `errc`, `error`
* `src/owned_fd.hpp`                  — `owned_fd`
* `include/shared_memory/shared_memory.hpp` — the `shared_memory` class
* `src/shared_memory.cpp`             — `shared_memory::create` / `::open`

Machine integers (`std::size_t`) are modelled as `Nat` with explicit
wrap-around (`% 2^64`) where the C++ code performs unsigned arithmetic that
could wrap.  Kernel calls are modelled by an explicit OS state (the shm
namespace as an association list from names to byte contents, plus `errno`)
together with fault-injection oracles for the failures the kernel may
report (`ftruncate`, `mmap`, `fstat`, spurious `shm_open` failures).
-/

/-- 2^64: one past the largest `std::size_t` value on the target (Linux x86-64). -/
def WORD : Nat := 18446744073709551616

/-- Wrapping subtraction of two 64-bit unsigned values (operands `< WORD`),
as C++ computes `a - b` on `std::size_t`. -/
def usub64 (a b : Nat) : Nat := (a + (WORD - b % WORD)) % WORD

/-! Section: error.hpp -/

/-- Embeds `enum class errc` from `error.hpp`: the shared-memory operations that can fail. -/
inductive errc where
  | open_failed
  | truncate_failed
  | map_failed
  | stat_failed
deriving DecidableEq, Repr

/-- The category of a `std::error_code`.  All error sites in this library use
`std::generic_category()`. -/
inductive error_category where
  | generic
  | system
deriving DecidableEq, Repr

/-- Model of `std::error_code`: an integer value paired with a category. -/
structure error_code where
  val : Int
  cat : error_category
deriving DecidableEq, Repr

/-- Embeds `class error` from `error.hpp`: an operation kind paired with a system
error code. -/
structure error where
  kind : errc
  code : error_code
deriving DecidableEq, Repr

/-- The defaulted `bool operator==(const error&) const` from `error.hpp`:
memberwise equality of the two components. -/
def error.eq_op (a b : error) : Bool :=
  decide (a.kind = b.kind) && decide (a.code = b.code)

/-! Section: std::span over bytes -/

/-- Model of `std::span<std::byte>`: a data pointer (an abstract address;
`none` models `nullptr`, the data pointer of a default-constructed span)
and an element count. -/
structure byte_span where
  ptr : Option Nat
  len : Nat
deriving DecidableEq, Repr

/-- The default-constructed (`{}`) span: null data pointer, zero size. -/
def byte_span.null : byte_span := ⟨none, 0⟩

/-- Embeds `std::span::subspan(offset, count)`: data pointer advanced by `offset`,
size `count`.  (The code calls it only after its bounds check passed.) -/
def byte_span.subspan (s : byte_span) (offset count : Nat) : byte_span :=
  ⟨s.ptr.map (· + offset), count⟩

/-! Section: shared_memory.hpp, the handle -/

/-- Embeds `class shared_memory`.  `base` is `_mem_view.data()` (`none` = null,
no mapping); `data` holds the bytes of the mapped region, so
`_mem_view.size()` is `data.length`. -/
structure shared_memory where
  name : String
  base : Option Nat
  data : List Nat
  should_unlink : Bool
deriving DecidableEq, Repr

/-- The default constructor `shared_memory()`: empty name, empty view,
no unlink responsibility. -/
def shared_memory.default_shm : shared_memory := ⟨"", none, [], false⟩

/-- Embeds `shared_memory::size()`: size of `_mem_view`. -/
def shared_memory.size (h : shared_memory) : Nat := h.data.length

/-- Embeds `shared_memory::empty()`: `_mem_view.empty()`. -/
def shared_memory.is_empty (h : shared_memory) : Bool := h.data.length == 0

/-- Embeds `shared_memory::get_memory()`: the whole mapping as a span. -/
def shared_memory.get_memory (h : shared_memory) : byte_span :=
  ⟨h.base, h.data.length⟩

/-- Embeds `shared_memory::_is_bounds_valid(offset, count)`:
`count <= _mem_view.size() && offset <= (_mem_view.size() - count)`, with
the subtraction performed on `std::size_t` (wrapping). -/
def shared_memory.bounds_valid (h : shared_memory) (offset count : Nat) : Bool :=
  decide (count ≤ h.size) && decide (offset ≤ usub64 h.size count)

/-- The bytes of the mapping at `[offset, offset+count)`. -/
def shared_memory.mem_slice (h : shared_memory) (offset count : Nat) : List Nat :=
  (h.data.drop offset).take count

/-- Embeds `shared_memory::view(offset, count)`: empty (`{}`) span when the bounds
check fails, otherwise `_mem_view.subspan(offset, count)`. -/
def shared_memory.view (h : shared_memory) (offset count : Nat) : byte_span :=
  if h.bounds_valid offset count then (h.get_memory).subspan offset count
  else byte_span.null

/-- Embeds `shared_memory::write(offset, data)`: `false` (mapping untouched) when
the bounds check fails; otherwise copies `data` into the mapping at
`offset` and returns `true`. -/
def shared_memory.write (h : shared_memory) (offset : Nat) (data : List Nat) :
    Bool × shared_memory :=
  if h.bounds_valid offset data.length then
    (true, { h with data := h.data.take offset ++ data ++ h.data.drop (offset + data.length) })
  else
    (false, h)

/-! Section: move operations and teardown (shared_memory.hpp) -/

/-- The shm namespace: an association list from names to the byte contents
of the corresponding segment. -/
abbrev shm_ns : Type := List (String × List Nat)

/-- Embeds `shm_unlink(name)`: remove the entry for `name` from the namespace. -/
def shm_unlink_ns (ns : shm_ns) (nm : String) : shm_ns :=
  List.eraseP (fun p => p.1 == nm) ns

/-- Lookup of a name in the namespace (kernel name resolution). -/
def shm_lookup (ns : shm_ns) (nm : String) : Option (List Nat) :=
  (List.find? (fun p => p.1 == nm) ns).map Prod.snd

/-- The namespace effect of `shared_memory::_close_shm()`: `munmap` (no
namespace effect), then `shm_unlink(_name)` when `_should_unlink` is set. -/
def close_shm_ns (ns : shm_ns) (h : shared_memory) : shm_ns :=
  if h.should_unlink then shm_unlink_ns ns h.name else ns

/-- The state the move operations leave the source in: `_name` moved-from
(empty under libstdc++/libc++ string move), `_mem_view` exchanged with `{}`,
`_should_unlink` exchanged with `false`. -/
def shared_memory.moved_from : shared_memory := ⟨"", none, [], false⟩

/-- The move constructor `shared_memory(shared_memory&&)`: returns
(destination, source-after-move). -/
def shared_memory.move_construct (other : shared_memory) :
    shared_memory × shared_memory :=
  (⟨other.name, other.base, other.data, other.should_unlink⟩, shared_memory.moved_from)

/-- Move assignment `operator=(shared_memory&&)`.  `same` models the
`this == &other` aliasing test (when `same` is true the two handle
arguments are the same object).  Returns
(namespace-after, destination-after, source-after). -/
def shared_memory.move_assign (same : Bool) (ns : shm_ns)
    (dest other : shared_memory) : shm_ns × shared_memory × shared_memory :=
  if same then (ns, dest, other)
  else (close_shm_ns ns dest,
        ⟨other.name, other.base, other.data, other.should_unlink⟩,
        shared_memory.moved_from)

/-! Section: owned_fd.hpp -/

/-- Process-visible state relevant to `owned_fd`: the `errno` slot and the
trace of kernel `close` calls performed so far. -/
structure proc_state where
  errno_v : Int
  closed : List Int
deriving DecidableEq, Repr

/-- Embeds `class owned_fd`: holds one integer file descriptor. -/
structure owned_fd where
  fd : Int
deriving DecidableEq, Repr

/-- Embeds `owned_fd::INVALID_FD`. -/
def INVALID_FD : Int := -1

/-- Embeds `owned_fd::is_valid()`: `_fd >= 0`. -/
def owned_fd.is_valid (f : owned_fd) : Bool := decide (0 ≤ f.fd)

/-- The kernel `close(fd)` call: records the close and leaves `errno` at
whatever value the call produced (`e`, chosen adversarially by the model). -/
def close_call (st : proc_state) (fd : Int) (e : Int) : proc_state :=
  ⟨e, st.closed ++ [fd]⟩

/-- Embeds `owned_fd::_reset()`: when `_fd >= 0`, saves `errno`, closes `_fd`,
restores `errno`, and sets `_fd = -1`; otherwise does nothing.  `e` is the
`errno` value the `close` call would leave behind. -/
def owned_fd.reset_fd (f : owned_fd) (st : proc_state) (e : Int) :
    proc_state × owned_fd :=
  if 0 ≤ f.fd then
    let saved := st.errno_v
    let st1 := close_call st f.fd e
    (⟨saved, st1.closed⟩, ⟨-1⟩)
  else
    (st, f)

/-- The `owned_fd` destructor: `_reset()`. -/
def owned_fd.destruct (f : owned_fd) (st : proc_state) (e : Int) :
    proc_state × owned_fd :=
  f.reset_fd st e

/-- The `owned_fd` move constructor:
`_fd(std::exchange(other._fd, INVALID_FD))`; returns (destination, source). -/
def owned_fd.move_construct (other : owned_fd) : owned_fd × owned_fd :=
  (⟨other.fd⟩, ⟨INVALID_FD⟩)

/-- Embeds `owned_fd::operator=(owned_fd&&)`: if not self-assignment, `_reset()`
then take the fd of `other`; `same` models `this == &other`.  Returns
(process-state-after, destination-after, source-after). -/
def owned_fd.move_assign (same : Bool) (dest other : owned_fd)
    (st : proc_state) (e : Int) : proc_state × owned_fd × owned_fd :=
  if same then (st, dest, other)
  else
    let r := dest.reset_fd st e
    (r.1, ⟨other.fd⟩, ⟨INVALID_FD⟩)

/-! Section: shared_memory.cpp, create and open -/

/-- Embeds `enum class access_mode` from `shared_memory.hpp`. -/
inductive access_mode where
  | READ
  | WRITE
  | READ_WRITE
deriving DecidableEq, Repr

/-- The `mode_t` value underlying each enumerator
(`S_IRUSR = 0400 = 256`, `S_IWUSR = 0200 = 128`). -/
def access_mode.to_mode_t : access_mode → Nat
  | .READ => 256
  | .WRITE => 128
  | .READ_WRITE => 384

/-- Embeds `to_prot` from `shared_memory.cpp` (`PROT_READ = 1`, `PROT_WRITE = 2`). -/
def to_prot : access_mode → Nat
  | .READ => 1
  | .WRITE => 2
  | .READ_WRITE => 3

/-- Linux errno values used by the model. -/
def ENOENT : Int := 2
def EEXIST : Int := 17
def EINVAL : Int := 22

/-- Fault-injection oracle for the kernel calls made inside `create`:
`of_err` forces a spurious `shm_open` failure with that errno, `ft_err` an
`ftruncate` failure, `mm_err` an `mmap` failure; `addr` is the (non-null)
address `mmap` returns on success. -/
structure create_env where
  of_err : Option Int
  ft_err : Option Int
  mm_err : Option Int
  addr : Nat
deriving DecidableEq, Repr

/-- Outcome of `ftruncate(fd, static_cast<off_t>(size))`: a size that does
not fit `off_t` (≥ 2^63) becomes negative after the cast and the kernel
rejects it with `EINVAL`; otherwise the injected fault (if any) decides.
`none` means success. -/
def ft_outcome (size : Nat) (inj : Option Int) : Option Int :=
  if 9223372036854775808 ≤ size then some EINVAL else inj

/-- Outcome of `mmap(nullptr, size, ...)`: the kernel rejects a zero-length
mapping with `EINVAL`; otherwise the injected fault (if any) decides.
`none` means success. -/
def mm_outcome (size : Nat) (inj : Option Int) : Option Int :=
  if size = 0 then some EINVAL else inj

/-- Outcome of `shm_open(name, O_RDWR | O_CREAT | O_EXCL, mode)`: an empty
name is rejected with `EINVAL`, an existing name with `EEXIST` (exclusive
creation); otherwise the injected fault (if any) decides.  `none` means the
entry was created. -/
def shm_open_excl_outcome (ns : shm_ns) (nm : String) (inj : Option Int) :
    Option Int :=
  if nm = "" then some EINVAL
  else if (shm_lookup ns nm).isSome then some EEXIST
  else inj

/-- Effect of `ftruncate` on the just-created entry: its contents become
`size` zero bytes (extension of an empty object zero-fills). -/
def ns_set_size (ns : shm_ns) (nm : String) (size : Nat) : shm_ns :=
  List.map (fun p => if p.1 = nm then (p.1, List.replicate size 0) else p) ns

/-- OS state threaded through `create` / `open`: the shm namespace and the
errno slot of the process. -/
structure os_state where
  ns : shm_ns
  errno_v : Int
deriving DecidableEq

/-- Embeds `shared_memory::create` (shared_memory.cpp lines 62–84): exclusive
`shm_open`, `ftruncate`, `mmap`; on a `ftruncate`/`mmap` failure the error
value is built from `errno` first and the name is then `shm_unlink`ed
before returning. -/
def shared_memory.create (st : os_state) (env : create_env) (shm_name : String)
    (size : Nat) (mode : access_mode) (should_unlink : Bool) :
    os_state × Except error shared_memory :=
  match shm_open_excl_outcome st.ns shm_name env.of_err with
  | some e => (⟨st.ns, e⟩, Except.error ⟨errc.open_failed, ⟨e, error_category.generic⟩⟩)
  | none =>
    let ns1 : shm_ns := (shm_name, []) :: st.ns
    match ft_outcome size env.ft_err with
    | some e =>
      let err : error := ⟨errc.truncate_failed, ⟨e, error_category.generic⟩⟩
      (⟨shm_unlink_ns ns1 shm_name, e⟩, Except.error err)
    | none =>
      let ns2 := ns_set_size ns1 shm_name size
      match mm_outcome size env.mm_err with
      | some e =>
        let err : error := ⟨errc.map_failed, ⟨e, error_category.generic⟩⟩
        (⟨shm_unlink_ns ns2 shm_name, e⟩, Except.error err)
      | none =>
        (⟨ns2, st.errno_v⟩,
         Except.ok ⟨shm_name, some env.addr, List.replicate size 0, should_unlink⟩)

/-- Fault-injection oracle for the kernel calls made inside `open`. -/
structure open_env where
  of_err : Option Int
  st_err : Option Int
  mm_err : Option Int
  addr : Nat
deriving DecidableEq, Repr

/-- Embeds `shared_memory::open` (shared_memory.cpp lines 86–106): `shm_open`
without `O_CREAT` (fails with `ENOENT` when the name does not exist),
`fstat` for the size, `mmap` read-write; no rollback on any failure. -/
def shared_memory.open_shm (st : os_state) (env : open_env) (shm_name : String) :
    os_state × Except error shared_memory :=
  if shm_name = "" then
    (⟨st.ns, EINVAL⟩, Except.error ⟨errc.open_failed, ⟨EINVAL, error_category.generic⟩⟩)
  else
    match shm_lookup st.ns shm_name with
    | none => (⟨st.ns, ENOENT⟩, Except.error ⟨errc.open_failed, ⟨ENOENT, error_category.generic⟩⟩)
    | some contents =>
      match env.of_err with
      | some e => (⟨st.ns, e⟩, Except.error ⟨errc.open_failed, ⟨e, error_category.generic⟩⟩)
      | none =>
        match env.st_err with
        | some e => (⟨st.ns, e⟩, Except.error ⟨errc.stat_failed, ⟨e, error_category.generic⟩⟩)
        | none =>
          match mm_outcome contents.length env.mm_err with
          | some e => (⟨st.ns, e⟩, Except.error ⟨errc.map_failed, ⟨e, error_category.generic⟩⟩)
          | none => (⟨st.ns, st.errno_v⟩,
                     Except.ok ⟨shm_name, some env.addr, contents, false⟩)

/-- The default arguments of the `create` declaration
(`shared_memory.hpp` lines 89–90): the C++ compiler substitutes these at a
call site that omits the trailing arguments. -/
def shared_memory.create_with_defaults (st : os_state) (env : create_env)
    (shm_name : String) (size : Nat) : os_state × Except error shared_memory :=
  shared_memory.create st env shm_name size access_mode.READ_WRITE true

/-- The state invariant of §3 of the specification: the mapped region is
empty iff the handle owns no mapping; if the unlink flag is set the name is
non-empty. -/
def shared_memory.inv (h : shared_memory) : Prop :=
  (h.data = [] ↔ h.base = none) ∧ (h.should_unlink = true → h.name ≠ "")

instance (h : shared_memory) : Decidable h.inv := by
  unfold shared_memory.inv; infer_instance

/-- A concrete mapped handle used by concrete instantiations: name `/t4`,
mapping of four zero bytes at address 4096, non-owning. -/
def sample_t4 : shared_memory := ⟨"/t4", some 4096, [0, 0, 0, 0], false⟩

/-! Section: helper lemmas -/

theorem usub64_sub (a b : Nat) (ha : a < WORD) (hb : b ≤ a) :
    usub64 a b = a - b := by
  simp only [usub64, WORD] at ha ⊢
  omega

theorem bounds_valid_iff_le (h : shared_memory) (offset count : Nat)
    (hs : h.size < WORD) :
    h.bounds_valid offset count = true ↔ offset + count ≤ h.size := by
  unfold shared_memory.bounds_valid
  rcases le_or_lt count h.size with hc | hc
  · rw [usub64_sub h.size count hs hc]
    simp only [Bool.and_eq_true, decide_eq_true_eq]
    omega
  · simp only [Bool.and_eq_true, decide_eq_true_eq]
    omega

/-- C2: for every handle and all `offset`, `count` over the full unsigned
range, the bounds check `count ≤ size && offset ≤ size − count` (with
wrapping subtraction) is equivalent to `offset + count ≤ size`; `view`
returns the empty `{}` span when the range is not contained, and otherwise
a sub-span of length exactly `count` whose data pointer aliases
`get_memory()` at offset `offset`, designating the mapping bytes at
`[offset, offset+count)`. -/
theorem C2_view_bounds (h : shared_memory) (offset count : Nat)
    (hs : h.size < WORD) :
    (h.bounds_valid offset count =
      (decide (count ≤ h.size) && decide (offset ≤ usub64 h.size count)))
    ∧ (h.bounds_valid offset count = true ↔ offset + count ≤ h.size)
    ∧ (¬ offset + count ≤ h.size → h.view offset count = byte_span.null)
    ∧ (offset + count ≤ h.size →
        h.view offset count = (h.get_memory).subspan offset count
        ∧ (h.view offset count).len = count
        ∧ (h.view offset count).ptr = h.base.map (· + offset)
        ∧ (h.mem_slice offset count).length = count) := by
  have hb := bounds_valid_iff_le h offset count hs
  refine ⟨rfl, hb, ?_, ?_⟩
  · intro hno
    have hbv : h.bounds_valid offset count = false := by
      cases hv : h.bounds_valid offset count
      · rfl
      · exact absurd (hb.mp hv) hno
    simp [shared_memory.view, hbv]
  · intro hyes
    have hbv : h.bounds_valid offset count = true := hb.mpr hyes
    refine ⟨by simp [shared_memory.view, hbv], ?_, ?_, ?_⟩
    · simp [shared_memory.view, hbv, byte_span.subspan]
    · simp [shared_memory.view, hbv, byte_span.subspan, shared_memory.get_memory]
    · have : offset + count ≤ h.data.length := hyes
      simp [shared_memory.mem_slice]
      omega

theorem C2_witness :
    sample_t4.bounds_valid 1 2 = true ↔ 1 + 2 ≤ sample_t4.size :=
  (C2_view_bounds sample_t4 1 2 (by decide)).2.1

/-- C3: `write(offset, bytes)` returns true iff the bounds predicate
`count ≤ size() ∧ offset ≤ size() − count` holds with `count = bytes.size()`;
on true the mapping bytes at `[offset, offset+count)` equal `bytes` and the
bytes outside that range (and every other field of the handle) are
unchanged; on false the handle is unchanged. -/
theorem C3_write (h : shared_memory) (offset : Nat) (d : List Nat)
    (hs : h.size < WORD) :
    ((h.write offset d).1 = true ↔ (d.length ≤ h.size ∧ offset ≤ h.size - d.length))
    ∧ ((h.write offset d).1 = true →
        ((h.write offset d).2.mem_slice offset d.length = d
         ∧ ((h.write offset d).2.data.take offset = h.data.take offset)
         ∧ ((h.write offset d).2.data.drop (offset + d.length) =
             h.data.drop (offset + d.length))
         ∧ (h.write offset d).2.size = h.size
         ∧ (h.write offset d).2.name = h.name
         ∧ (h.write offset d).2.base = h.base
         ∧ (h.write offset d).2.should_unlink = h.should_unlink))
    ∧ ((h.write offset d).1 = false → (h.write offset d).2 = h) := by
  have hb := bounds_valid_iff_le h offset d.length hs
  have hsz : h.size = h.data.length := rfl
  by_cases hbv : h.bounds_valid offset d.length = true
  · have hle : offset + d.length ≤ h.data.length := hb.mp hbv
    have hA : (h.data.take offset).length = offset := by
      simp
      omega
    have hAd : (h.data.take offset ++ d).length = offset + d.length := by
      simp [hA]
    have hw : h.write offset d =
        (true, { h with data := h.data.take offset ++ d ++ h.data.drop (offset + d.length) }) := by
      simp [shared_memory.write, hbv]
    rw [hw]
    refine ⟨by simpa using (by omega : d.length ≤ h.size ∧ offset ≤ h.size - d.length), ?_, ?_⟩
    · intro _
      refine ⟨?_, ?_, ?_, ?_, rfl, rfl, rfl⟩
      · show ((h.data.take offset ++ d ++ h.data.drop (offset + d.length)).drop offset).take d.length = d
        rw [List.append_assoc, List.drop_left' hA, List.take_left' rfl]
      · show (h.data.take offset ++ d ++ h.data.drop (offset + d.length)).take offset = h.data.take offset
        rw [List.append_assoc, List.take_left' hA]
      · show (h.data.take offset ++ d ++ h.data.drop (offset + d.length)).drop (offset + d.length) = h.data.drop (offset + d.length)
        rw [List.drop_left' hAd]
      · show (h.data.take offset ++ d ++ h.data.drop (offset + d.length)).length = h.data.length
        simp
        omega
    · intro hfalse
      simp at hfalse
  · have hw : h.write offset d = (false, h) := by
      simp [shared_memory.write, hbv]
    rw [hw]
    refine ⟨?_, ?_, fun _ => rfl⟩
    · simp only [Bool.false_eq_true, false_iff]
      intro hc
      exact hbv (hb.mpr (by omega))
    · intro habs
      simp at habs

theorem C3_witness :
    (sample_t4.write 1 [9, 9]).1 = true ↔
      ([9, 9] : List Nat).length ≤ sample_t4.size
        ∧ 1 ≤ sample_t4.size - ([9, 9] : List Nat).length :=
  (C3_write sample_t4 1 [9, 9] (by decide)).1

/-- C4 counterexample: on a default-constructed handle (no mapping,
`size() == 0`) the bounds predicate holds at `(size(), 0)`, yet
`view(size(), 0)` is the null span — not a region aliasing the mapping —
so "view returns a non-empty region iff the bounds hold" fails for this
handle, as does "view(size(), 0) returns a non-empty region". -/
theorem C4_cex :
    shared_memory.default_shm.bounds_valid shared_memory.default_shm.size 0 = true
    ∧ (shared_memory.default_shm.view shared_memory.default_shm.size 0).ptr.isSome = false
    ∧ shared_memory.default_shm.view shared_memory.default_shm.size 0 = byte_span.null := by
  decide

/-- C4 (amended): for every handle that holds a mapping (non-null
`_mem_view.data()`), `view(offset, count)` returns a region with a data
pointer into the mapping iff `count ≤ size()` and `offset ≤ size() − count`;
in particular `view(size(), 0)` is a zero-length region whose pointer is
one past the mapping, while `view(size(), 1)` is the empty `{}` span.  (On
a handle with no mapping every zero-length in-bounds view degenerates to
the null span.) -/
theorem C4_view_nonempty (h : shared_memory) (offset count : Nat)
    (hs : h.size < WORD) (hm : h.base.isSome = true) :
    ((h.view offset count).ptr.isSome = true ↔
      (count ≤ h.size ∧ offset ≤ h.size - count))
    ∧ (h.view h.size 0).ptr.isSome = true
    ∧ (h.view h.size 0).len = 0
    ∧ (h.view h.size 0).ptr = h.base.map (· + h.size)
    ∧ h.view h.size 1 = byte_span.null := by
  obtain ⟨b, hbb⟩ := Option.isSome_iff_exists.mp hm
  have key : ∀ o c : Nat, (h.view o c).ptr.isSome = h.bounds_valid o c := by
    intro o c
    by_cases hv : h.bounds_valid o c = true
    · simp [shared_memory.view, hv, byte_span.subspan, shared_memory.get_memory, hbb]
    · simp [shared_memory.view, hv, byte_span.null]
  have hb0 : h.bounds_valid h.size 0 = true :=
    (bounds_valid_iff_le h h.size 0 hs).mpr (by omega)
  refine ⟨?_, ?_, ?_, ?_, ?_⟩
  · rw [key offset count, bounds_valid_iff_le h offset count hs]
    omega
  · rw [key h.size 0]
    exact hb0
  · simp [shared_memory.view, hb0, byte_span.subspan]
  · simp [shared_memory.view, hb0, byte_span.subspan, shared_memory.get_memory]
  · cases hv : h.bounds_valid h.size 1
    · simp [shared_memory.view, hv]
    · exact absurd ((bounds_valid_iff_le h h.size 1 hs).mp hv) (by omega)

theorem C4_witness :
    (sample_t4.view 1 2).ptr.isSome = true ↔
      (2 ≤ sample_t4.size ∧ 1 ≤ sample_t4.size - 2) :=
  (C4_view_nonempty sample_t4 1 2 (by decide) (by decide)).1

/-- C9: two error values compare equal under the defaulted `operator==`
iff both their components are equal; the comparison is reflexive and
symmetric and depends only on the two components. -/
theorem C9_error_eq :
    (∀ (k1 k2 : errc) (c1 c2 : error_code),
      error.eq_op ⟨k1, c1⟩ ⟨k2, c2⟩ = true ↔ (k1 = k2 ∧ c1 = c2))
    ∧ (∀ a : error, error.eq_op a a = true)
    ∧ (∀ a b : error, error.eq_op a b = error.eq_op b a) := by
  refine ⟨?_, ?_, ?_⟩
  · intro k1 k2 c1 c2
    simp [error.eq_op]
  · intro a
    simp [error.eq_op]
  · intro a b
    unfold error.eq_op
    rw [decide_eq_decide.mpr (eq_comm (a := a.kind) (b := b.kind)),
        decide_eq_decide.mpr (eq_comm (a := a.code) (b := b.code))]

/-- C10 counterexample: on a mapped handle the in-bounds zero-length view
carries a (non-null) data pointer into the mapping, so it is
distinguishable from the out-of-bounds failure result, which is the null
span: `view(0, 0) ≠ view(size()+1, 0)` on `sample_t4`. -/
theorem C10_cex :
    sample_t4.bounds_valid 0 0 = true
    ∧ sample_t4.view 5 0 = byte_span.null
    ∧ sample_t4.view 0 0 ≠ byte_span.null
    ∧ sample_t4.view 0 0 ≠ sample_t4.view 5 0 := by
  decide

/-- C10 (amended): zero-length accesses always pass the bounds check, on
any handle (mapped or not) and any `offset ≤ size()`: `write(offset, [])`
returns true and leaves the handle unchanged, and `view(offset, 0)` is a
zero-length region — it matches the failure result in size (both report
empty) though its data pointer may differ from the null pointer of the
failure result; the omitted parameters of `create` default to `mode = READ_WRITE` and
`unlink_on_drop = true`. -/
theorem C10_zero_len (h : shared_memory) (offset : Nat)
    (hs : h.size < WORD) (ho : offset ≤ h.size) :
    h.write offset [] = (true, h)
    ∧ (h.view offset 0).len = 0
    ∧ byte_span.null.len = 0
    ∧ (∀ (st : os_state) (env : create_env) (nm : String) (sz : Nat),
        shared_memory.create_with_defaults st env nm sz =
          shared_memory.create st env nm sz access_mode.READ_WRITE true) := by
  have hbv : h.bounds_valid offset 0 = true :=
    (bounds_valid_iff_le h offset 0 hs).mpr (by omega)
  refine ⟨?_, ?_, rfl, fun st env nm sz => rfl⟩
  · have hd : h.data.take offset ++ ([] : List Nat) ++ h.data.drop (offset + 0) = h.data := by
      simp
    simp only [shared_memory.write, List.length_nil, hbv, if_true, hd]
  · simp [shared_memory.view, hbv, byte_span.subspan]

theorem C10_witness :
    sample_t4.write 2 [] = (true, sample_t4) :=
  (C10_zero_len sample_t4 2 (by decide) (by decide)).1

theorem find?_of_lookup_none (ns : shm_ns) (nm : String)
    (h : shm_lookup ns nm = none) :
    List.find? (fun p => p.1 == nm) ns = none := by
  unfold shm_lookup at h
  cases hf : List.find? (fun p => p.1 == nm) ns
  · rfl
  · rw [hf] at h
    simp at h

theorem ns_set_size_fresh (ns : shm_ns) (nm : String) (s : Nat)
    (hfresh : shm_lookup ns nm = none) : ns_set_size ns nm s = ns := by
  have hf := find?_of_lookup_none ns nm hfresh
  rw [List.find?_eq_none] at hf
  clear hfresh
  unfold ns_set_size
  induction ns with
  | nil => rfl
  | cons p t ih =>
    have hp : ¬ p.1 = nm := by
      have hx := hf p (List.mem_cons_self p t)
      simpa using hx
    simp only [List.map_cons, if_neg hp]
    have ht := ih (fun x hx => hf x (List.mem_cons_of_mem p hx))
    rw [ht]

theorem shm_unlink_cons_self (t : shm_ns) (nm : String) (v : List Nat) :
    shm_unlink_ns ((nm, v) :: t) nm = t := by
  unfold shm_unlink_ns
  rw [List.eraseP_cons_of_pos]
  simp

/-- C1: when `create` fails at the sizing (`ftruncate`) or mapping (`mmap`)
step — i.e. after the exclusive `shm_open` created the namespace entry —
the entry is removed again before the error is returned: the resulting
namespace equals the initial one, and the returned error value carries kind
`truncate_failed` resp. `map_failed` paired with the `errno` value captured
at the point of failure (before the rollback `shm_unlink` runs, which is
also the errno the model injected at that kernel call). -/
theorem C1_create_rollback (st : os_state) (env : create_env) (nm : String)
    (size : Nat) (mode : access_mode) (su : Bool) (e : Int)
    (hn : nm ≠ "") (hfresh : shm_lookup st.ns nm = none)
    (hof : env.of_err = none) :
    (ft_outcome size env.ft_err = some e →
      shared_memory.create st env nm size mode su =
        (⟨st.ns, e⟩, Except.error ⟨errc.truncate_failed, ⟨e, error_category.generic⟩⟩))
    ∧ (ft_outcome size env.ft_err = none →
       mm_outcome size env.mm_err = some e →
      shared_memory.create st env nm size mode su =
        (⟨st.ns, e⟩, Except.error ⟨errc.map_failed, ⟨e, error_category.generic⟩⟩)) := by
  have hopen : shm_open_excl_outcome st.ns nm env.of_err = none := by
    unfold shm_open_excl_outcome
    rw [hfresh]
    simp [hn, hof]
  constructor
  · intro hft
    unfold shared_memory.create
    simp only [hopen, hft]
    rw [shm_unlink_cons_self]
  · intro hft hmm
    unfold shared_memory.create
    simp only [hopen, hft, hmm]
    have hset : ns_set_size ((nm, []) :: st.ns) nm size =
        (nm, List.replicate size 0) :: ns_set_size st.ns nm size := by
      simp [ns_set_size]
    rw [hset, shm_unlink_cons_self, ns_set_size_fresh st.ns nm size hfresh]

theorem C1_witness :
    shared_memory.create ⟨[], 0⟩ ⟨none, some 5, none, 4096⟩ "/w" 64
        access_mode.READ_WRITE true =
      (⟨[], 5⟩, Except.error ⟨errc.truncate_failed, ⟨5, error_category.generic⟩⟩) :=
  (C1_create_rollback ⟨[], 0⟩ ⟨none, some 5, none, 4096⟩ "/w" 64
    access_mode.READ_WRITE true 5 (by decide) rfl rfl).1 (by decide)

/-- C6: move-construction transfers the (name, region, unlink-flag) triple
and resets the source to the moved-from (empty) state; move-assignment
first runs `_close_shm` on the destination (unlinking its name exactly when
its flag was set) and then takes over the triple of the source, resetting the
source; self-move-assignment (the `this == &other` branch) is a no-op on
both the handle and the namespace. -/
theorem C6_move_semantics (ns : shm_ns) (dest src h : shared_memory) :
    shared_memory.move_construct src =
      (⟨src.name, src.base, src.data, src.should_unlink⟩, shared_memory.moved_from)
    ∧ (shared_memory.move_construct src).2.is_empty = true
    ∧ (shared_memory.move_construct src).1.size = src.size
    ∧ shared_memory.move_assign false ns dest src =
        (close_shm_ns ns dest,
         ⟨src.name, src.base, src.data, src.should_unlink⟩,
         shared_memory.moved_from)
    ∧ (dest.should_unlink = true →
        (shared_memory.move_assign false ns dest src).1 = shm_unlink_ns ns dest.name)
    ∧ (dest.should_unlink = false →
        (shared_memory.move_assign false ns dest src).1 = ns)
    ∧ (shared_memory.move_assign false ns dest src).2.1.size = src.size
    ∧ (shared_memory.move_assign false ns dest src).2.2.is_empty = true
    ∧ shared_memory.move_assign true ns h h = (ns, h, h) := by
  refine ⟨rfl, rfl, rfl, rfl, ?_, ?_, rfl, rfl, rfl⟩
  · intro hu
    simp [shared_memory.move_assign, close_shm_ns, hu]
  · intro hu
    simp [shared_memory.move_assign, close_shm_ns, hu]

theorem C6_witness :
    (shared_memory.move_assign false [] sample_t4 sample_t4).1 = [] :=
  (C6_move_semantics [] sample_t4 sample_t4 sample_t4).2.2.2.2.2.1 rfl

/-- C5: the state invariant (region empty iff no mapping; unlink flag
implies non-empty name; moved-from handles are fully empty) holds for the
default-constructed handle and for every handle produced by a successful
`create` or `open`, and is preserved by `write`, move-construction and
move-assignment. -/
theorem C5_invariant :
    shared_memory.default_shm.inv
    ∧ (∀ (st : os_state) (env : create_env) (nm : String) (size : Nat)
         (mode : access_mode) (su : Bool) (st' : os_state) (h : shared_memory),
        shared_memory.create st env nm size mode su = (st', Except.ok h) → h.inv)
    ∧ (∀ (st : os_state) (env : open_env) (nm : String) (st' : os_state)
         (h : shared_memory),
        shared_memory.open_shm st env nm = (st', Except.ok h) → h.inv)
    ∧ (∀ (h : shared_memory) (offset : Nat) (d : List Nat),
        h.size < WORD → h.inv → (h.write offset d).2.inv)
    ∧ (∀ h : shared_memory, h.inv →
        (h.move_construct.1.inv ∧ h.move_construct.2.inv))
    ∧ (∀ (same : Bool) (ns : shm_ns) (dest src : shared_memory),
        dest.inv → src.inv →
        ((shared_memory.move_assign same ns dest src).2.1.inv
         ∧ (shared_memory.move_assign same ns dest src).2.2.inv)) := by
  refine ⟨by decide, ?_, ?_, ?_, ?_, ?_⟩
  · intro st env nm size mode su st' h heq
    unfold shared_memory.create at heq
    cases ho : shm_open_excl_outcome st.ns nm env.of_err with
    | some e => rw [ho] at heq; simp at heq
    | none =>
      rw [ho] at heq
      cases hft : ft_outcome size env.ft_err with
      | some e => rw [hft] at heq; simp at heq
      | none =>
        rw [hft] at heq
        cases hmm : mm_outcome size env.mm_err with
        | some e => rw [hmm] at heq; simp at heq
        | none =>
          rw [hmm] at heq
          simp only [Prod.mk.injEq, Except.ok.injEq] at heq
          have hh := heq.2
          have hsz : size ≠ 0 := by
            unfold mm_outcome at hmm
            by_contra h0
            rw [if_pos h0] at hmm
            simp at hmm
          have hnm : nm ≠ "" := by
            unfold shm_open_excl_outcome at ho
            by_contra h0
            rw [if_pos h0] at ho
            simp at ho
          rw [← hh]
          refine ⟨?_, fun _ => hnm⟩
          simp [List.replicate, hsz]
  · intro st env nm st' h heq
    unfold shared_memory.open_shm at heq
    by_cases hempty : nm = ""
    · rw [if_pos hempty] at heq
      simp at heq
    · rw [if_neg hempty] at heq
      cases hl : shm_lookup st.ns nm with
      | none => simp only [hl] at heq; simp at heq
      | some contents =>
        simp only [hl] at heq
        cases hof : env.of_err with
        | some e => simp only [hof] at heq; simp at heq
        | none =>
          simp only [hof] at heq
          cases hst : env.st_err with
          | some e => simp only [hst] at heq; simp at heq
          | none =>
            simp only [hst] at heq
            cases hmm : mm_outcome contents.length env.mm_err with
            | some e => simp only [hmm] at heq; simp at heq
            | none =>
              simp only [hmm] at heq
              simp only [Prod.mk.injEq, Except.ok.injEq] at heq
              have hh := heq.2
              have hcz : contents.length ≠ 0 := by
                unfold mm_outcome at hmm
                by_contra h0
                rw [if_pos h0] at hmm
                simp at hmm
              rw [← hh]
              refine ⟨?_, by simp⟩
              constructor
              · intro hc
                exact absurd (congrArg List.length hc) (by simpa using hcz)
              · intro hc
                simp at hc
  · intro h offset d hs hinv
    by_cases hbv : h.bounds_valid offset d.length = true
    · have hle : offset + d.length ≤ h.data.length :=
        (bounds_valid_iff_le h offset d.length hs).mp hbv
      have hw : h.write offset d =
          (true, { h with data := h.data.take offset ++ d ++ h.data.drop (offset + d.length) }) := by
        simp [shared_memory.write, hbv]
      rw [hw]
      have hlen : (h.data.take offset ++ d ++ h.data.drop (offset + d.length)).length
          = h.data.length := by
        simp
        omega
      refine ⟨?_, hinv.2⟩
      rw [← List.length_eq_zero, hlen, List.length_eq_zero]
      exact hinv.1
    · have hw : h.write offset d = (false, h) := by
        simp [shared_memory.write, hbv]
      rw [hw]
      exact hinv
  · intro h hinv
    refine ⟨?_, ?_⟩
    · show shared_memory.inv (⟨h.name, h.base, h.data, h.should_unlink⟩ : shared_memory)
      exact hinv
    · show shared_memory.inv shared_memory.moved_from
      decide
  · intro same ns dest src hd hsrc
    cases same
    · refine ⟨?_, ?_⟩
      · show shared_memory.inv (⟨src.name, src.base, src.data, src.should_unlink⟩ : shared_memory)
        exact hsrc
      · show shared_memory.inv shared_memory.moved_from
        decide
    · exact ⟨hd, hsrc⟩

theorem C5_witness : (sample_t4.write 0 [1]).2.inv :=
  C5_invariant.2.2.2.1 sample_t4 0 [1] (by decide) (by decide)

/-- C7: `open` attaches to an existing namespace entry, determines the
size by `fstat` and maps the full region; on success the returned handle
has unlink flag false, carries the requested name, and `size()` equals the
stat-reported size (the length of the entry contents); on failure the
error kind is `open_failed` when the attach fails, `stat_failed` when the
stat fails, and `map_failed` when the mapping fails — and in every case
(success or failure) the namespace is left unchanged (no rollback). -/
theorem C7_open (st : os_state) (env : open_env) (nm : String) :
    ((shared_memory.open_shm st env nm).1.ns = st.ns)
    ∧ (∀ (st' : os_state) (h : shared_memory),
        shared_memory.open_shm st env nm = (st', Except.ok h) →
        h.should_unlink = false ∧ h.name = nm
          ∧ h.size = ((shm_lookup st.ns nm).getD []).length ∧ st'.ns = st.ns)
    ∧ (nm = "" →
        shared_memory.open_shm st env nm =
          (⟨st.ns, EINVAL⟩,
           Except.error ⟨errc.open_failed, ⟨EINVAL, error_category.generic⟩⟩))
    ∧ (nm ≠ "" → shm_lookup st.ns nm = none →
        shared_memory.open_shm st env nm =
          (⟨st.ns, ENOENT⟩,
           Except.error ⟨errc.open_failed, ⟨ENOENT, error_category.generic⟩⟩))
    ∧ (∀ (contents : List Nat) (e : Int), nm ≠ "" →
        shm_lookup st.ns nm = some contents → env.of_err = some e →
        shared_memory.open_shm st env nm =
          (⟨st.ns, e⟩,
           Except.error ⟨errc.open_failed, ⟨e, error_category.generic⟩⟩))
    ∧ (∀ (contents : List Nat) (e : Int), nm ≠ "" →
        shm_lookup st.ns nm = some contents → env.of_err = none →
        env.st_err = some e →
        shared_memory.open_shm st env nm =
          (⟨st.ns, e⟩,
           Except.error ⟨errc.stat_failed, ⟨e, error_category.generic⟩⟩))
    ∧ (∀ (contents : List Nat) (e : Int), nm ≠ "" →
        shm_lookup st.ns nm = some contents → env.of_err = none →
        env.st_err = none → mm_outcome contents.length env.mm_err = some e →
        shared_memory.open_shm st env nm =
          (⟨st.ns, e⟩,
           Except.error ⟨errc.map_failed, ⟨e, error_category.generic⟩⟩)) := by
  refine ⟨?_, ?_, ?_, ?_, ?_, ?_, ?_⟩
  · unfold shared_memory.open_shm
    split
    · rfl
    · split
      · rfl
      · split
        · rfl
        · split
          · rfl
          · split <;> rfl
  · intro st' h heq
    unfold shared_memory.open_shm at heq
    by_cases hempty : nm = ""
    · rw [if_pos hempty] at heq
      simp at heq
    · rw [if_neg hempty] at heq
      cases hl : shm_lookup st.ns nm with
      | none => simp only [hl] at heq; simp at heq
      | some contents =>
        simp only [hl] at heq
        cases hof : env.of_err with
        | some e => simp only [hof] at heq; simp at heq
        | none =>
          simp only [hof] at heq
          cases hst : env.st_err with
          | some e => simp only [hst] at heq; simp at heq
          | none =>
            simp only [hst] at heq
            cases hmm : mm_outcome contents.length env.mm_err with
            | some e => simp only [hmm] at heq; simp at heq
            | none =>
              simp only [hmm] at heq
              simp only [Prod.mk.injEq, Except.ok.injEq] at heq
              rw [← heq.2, ← heq.1]
              exact ⟨rfl, rfl, by simp [shared_memory.size, hl], rfl⟩
  · intro hempty
    unfold shared_memory.open_shm
    rw [if_pos hempty]
  · intro hempty hl
    unfold shared_memory.open_shm
    rw [if_neg hempty]
    simp only [hl]
  · intro contents e hempty hl hof
    unfold shared_memory.open_shm
    rw [if_neg hempty]
    simp only [hl, hof]
  · intro contents e hempty hl hof hst
    unfold shared_memory.open_shm
    rw [if_neg hempty]
    simp only [hl, hof, hst]
  · intro contents e hempty hl hof hst hmm
    unfold shared_memory.open_shm
    rw [if_neg hempty]
    simp only [hl, hof, hst, hmm]

theorem C7_witness :
    (⟨"/t2", some 8192, [1, 2], false⟩ : shared_memory).should_unlink = false
    ∧ (⟨"/t2", some 8192, [1, 2], false⟩ : shared_memory).name = "/t2"
    ∧ (⟨"/t2", some 8192, [1, 2], false⟩ : shared_memory).size =
        ((shm_lookup [("/t2", [1, 2])] "/t2").getD []).length
    ∧ (⟨[("/t2", [1, 2])], 0⟩ : os_state).ns = [("/t2", [1, 2])] :=
  (C7_open ⟨[("/t2", [1, 2])], 0⟩ ⟨none, none, none, 8192⟩ "/t2").2.1
    ⟨[("/t2", [1, 2])], 0⟩ ⟨"/t2", some 8192, [1, 2], false⟩ rfl

/-- C8: destroying an `owned_fd` holding a valid handle performs the
kernel close exactly once (a second `_reset`, as after a move, adds no
further close) and restores `errno` to its prior value across the close;
move-construction and move-assignment transfer the handle and leave the
source holding `INVALID_FD`; destroying an invalid descriptor performs no
close and changes nothing. -/
theorem C8_owned_fd (f : owned_fd) (st : proc_state) (e e2 : Int) :
    (0 ≤ f.fd →
      ((f.destruct st e).1.closed = st.closed ++ [f.fd]
       ∧ (f.destruct st e).1.errno_v = st.errno_v
       ∧ (f.destruct st e).2.fd = INVALID_FD
       ∧ ((f.destruct st e).2.destruct (f.destruct st e).1 e2).1.closed
           = st.closed ++ [f.fd]))
    ∧ (¬ 0 ≤ f.fd → f.destruct st e = (st, f))
    ∧ owned_fd.move_construct f = (⟨f.fd⟩, ⟨INVALID_FD⟩)
    ∧ (owned_fd.move_construct f).2.is_valid = false
    ∧ (∀ d : owned_fd, 0 ≤ d.fd →
        owned_fd.move_assign false d f st e =
          (⟨st.errno_v, st.closed ++ [d.fd]⟩, ⟨f.fd⟩, ⟨INVALID_FD⟩))
    ∧ (∀ d : owned_fd, ¬ 0 ≤ d.fd →
        owned_fd.move_assign false d f st e = (st, ⟨f.fd⟩, ⟨INVALID_FD⟩)) := by
  refine ⟨?_, ?_, rfl, rfl, ?_, ?_⟩
  · intro hv
    have h1 : f.destruct st e = (⟨st.errno_v, st.closed ++ [f.fd]⟩, ⟨-1⟩) := by
      simp [owned_fd.destruct, owned_fd.reset_fd, close_call, hv]
    rw [h1]
    refine ⟨rfl, rfl, rfl, ?_⟩
    simp [owned_fd.destruct, owned_fd.reset_fd]
  · intro hv
    simp [owned_fd.destruct, owned_fd.reset_fd, hv]
  · intro d hd
    simp [owned_fd.move_assign, owned_fd.reset_fd, close_call, hd]
  · intro d hd
    simp [owned_fd.move_assign, owned_fd.reset_fd, hd]

theorem C8_witness :
    ((owned_fd.mk 3).destruct ⟨0, []⟩ 9).1.closed = [] ++ [(3 : Int)] :=
  ((C8_owned_fd ⟨3⟩ ⟨0, []⟩ 9 7).1 (by decide)).1

theorem C9_witness :
    error.eq_op ⟨errc.open_failed, ⟨2, error_category.generic⟩⟩
        ⟨errc.open_failed, ⟨2, error_category.generic⟩⟩ = true :=
  C9_error_eq.2.1 ⟨errc.open_failed, ⟨2, error_category.generic⟩⟩
